import Mathlib

/-!
Shallow embedding of the bytebase anomaly-detection engine
(server/anomaly_scanner.go) and of the policy model (api policy file),
with theorems checking the natural-language specification against it.

Conventions of the embedding:
- Go int / int64 values (ids, hours, unix timestamps) are Lean Int or Nat.
- The external services (environment store, policy store, driver, backup
  store, anomaly ledger) are oracles: their responses are inputs to the
  embedded functions, and the requests the scanner issues to the anomaly
  ledger are returned as an explicit list of LedgerAction values, in the
  order the Go code issues them.
- json.Marshal of the anomaly payload structs (whose fields are strings
  and integers) cannot fail in Go, so payload marshalling is modelled as
  total and payloads are carried structurally.
-/

/-- Anomaly types used by the scanner (api.AnomalyDatabaseConnection,
api.AnomalyDatabaseSchemaDrift, api.AnomalyDatabaseBackupPolicyViolation,
api.AnomalyDatabaseBackupMissing). -/
inductive AnomalyType
  | databaseConnection
  | databaseSchemaDrift
  | databaseBackupPolicyViolation
  | databaseBackupMissing
deriving DecidableEq, Repr

/-- BackupPlanPolicySchedule is a Go string type; values UNSET, DAILY, WEEKLY. -/
abbrev BackupPlanPolicySchedule := String

/-- Constant api.BackupPlanPolicyScheduleUnset. -/
def BackupPlanPolicyScheduleUnset : BackupPlanPolicySchedule := "UNSET"

/-- Constant api.BackupPlanPolicyScheduleDaily. -/
def BackupPlanPolicyScheduleDaily : BackupPlanPolicySchedule := "DAILY"

/-- Constant api.BackupPlanPolicyScheduleWeekly. -/
def BackupPlanPolicyScheduleWeekly : BackupPlanPolicySchedule := "WEEKLY"

/-- The type-specific anomaly payloads
(api.AnomalyDatabaseConnectionPayload, api.AnomalyDatabaseSchemaDriftPayload,
api.AnomalyDatabaseBackupPolicyViolationPayload,
api.AnomalyDatabaseBackupMissingPayload).  The lastBackupTs field of the
backup-missing payload is optional: the Go code assigns it only when some
backup record exists. -/
inductive AnomalyPayload
  | connection (detail : String)
  | schemaDrift (version expect actual : String)
  | backupPolicyViolation (environmentId : Nat)
      (expectedBackupSchedule actualBackupSchedule : BackupPlanPolicySchedule)
  | backupMissing (expectedBackupSchedule : BackupPlanPolicySchedule)
      (lastBackupTs : Option Int)
deriving DecidableEq, Repr

/-- A request the scanner issues to the anomaly ledger: either
AnomalyService.UpsertActiveAnomaly (api.AnomalyUpsert carries instanceId,
databaseId, type and payload) or AnomalyService.ArchiveAnomaly
(api.AnomalyArchive carries databaseId and type). -/
inductive LedgerAction
  | upsert (instanceId databaseId : Nat) (ty : AnomalyType) (payload : AnomalyPayload)
  | archive (databaseId : Nat) (ty : AnomalyType)
deriving DecidableEq, Repr

/-- The anomaly type a ledger request is about. -/
def LedgerAction.anomalyType : LedgerAction → AnomalyType
  | LedgerAction.upsert _ _ t _ => t
  | LedgerAction.archive _ t => t

/-- One row of driver.FindMigrationHistoryList output: the fields the
scanner reads (Version and Schema). -/
structure MigrationHistory where
  version : String
  schema : String
deriving DecidableEq, Repr

/-- Oracle for the driver calls made by checkDatabaseAnomaly for one
database: the result of GetDatabaseDriver (error detail on failure), of
driver.Dump (the dumped schema text on success; the Bool distinguishes a
common.NotFound dump error, which only affects the log level), and of
driver.FindMigrationHistoryList with limit 1. -/
structure DriverOutcome where
  connect : Except String Unit
  dump : Except Bool String
  findMigrationHistoryList : Except Unit (List MigrationHistory)

/-- Embedding of AnomalyScanner.checkDatabaseAnomaly
(server/anomaly_scanner.go lines 143-268): returns the ledger requests it
issues, in order.  On connection failure it upserts a DatabaseConnection
anomaly and returns; on success it archives the DatabaseConnection anomaly,
then dumps the schema and compares it with the latest migration history
record; on mismatch it upserts a DatabaseSchemaDrift anomaly, on match the
Go code issues an archive request whose Type field is
api.AnomalyDatabaseConnection (line 255). -/
def checkDatabaseAnomaly (d : DriverOutcome) (instanceId databaseId : Nat) :
    List LedgerAction :=
  match d.connect with
  | Except.error detail =>
      [LedgerAction.upsert instanceId databaseId AnomalyType.databaseConnection
        (AnomalyPayload.connection detail)]
  | Except.ok _ =>
      LedgerAction.archive databaseId AnomalyType.databaseConnection ::
      (match d.dump with
       | Except.error _ => []
       | Except.ok schemaBuf =>
         match d.findMigrationHistoryList with
         | Except.error _ => []
         | Except.ok list =>
           match list with
           | [] => []
           | h :: _ =>
             if h.schema ≠ schemaBuf then
               [LedgerAction.upsert instanceId databaseId AnomalyType.databaseSchemaDrift
                 (AnomalyPayload.schemaDrift h.version h.schema schemaBuf)]
             else
               [LedgerAction.archive databaseId AnomalyType.databaseConnection])

/-- BackupSetting fields read by the scanner (api.BackupSetting). -/
structure BackupSetting where
  enabled : Bool
  hour : Int
  dayOfWeek : Int
  updatedTs : Int
deriving DecidableEq, Repr

/-- Backup record fields read by the scanner (api.Backup). -/
structure Backup where
  updatedTs : Int
deriving DecidableEq, Repr

/-- Result of BackupService.FindBackupSetting: a setting row, a
common.NotFound error, or any other error. -/
inductive FindSettingResult
  | found (bs : BackupSetting)
  | notFound
  | err
deriving DecidableEq, Repr

/-- The setting the Go code continues with: nil both when the lookup
returned common.NotFound and when it failed (the err case never reaches
the code that reads the setting, because checkBackupAnomaly returns). -/
def FindSettingResult.setting : FindSettingResult → Option BackupSetting
  | FindSettingResult.found bs => some bs
  | _ => none

/-- The schedule value computed at lines 271-292: Daily or Weekly only when
a setting row exists with enabled true and hour distinct from -1, Unset
otherwise. -/
def effectiveSchedule : Option BackupSetting → BackupPlanPolicySchedule
  | some bs =>
      if bs.enabled ∧ bs.hour ≠ -1 then
        if bs.dayOfWeek = -1 then BackupPlanPolicyScheduleDaily
        else BackupPlanPolicyScheduleWeekly
      else BackupPlanPolicyScheduleUnset
  | none => BackupPlanPolicyScheduleUnset

/-- The backupPolicyAnomalyPayload variable computed at lines 296-313. -/
def backupPolicyViolationPayload (environmentId : Nat)
    (policySchedule schedule : BackupPlanPolicySchedule) : Option AnomalyPayload :=
  if policySchedule ≠ BackupPlanPolicyScheduleUnset then
    if policySchedule = BackupPlanPolicyScheduleDaily ∧
        schedule ≠ BackupPlanPolicyScheduleDaily then
      some (AnomalyPayload.backupPolicyViolation environmentId policySchedule schedule)
    else if policySchedule = BackupPlanPolicyScheduleWeekly ∧
        schedule = BackupPlanPolicyScheduleUnset then
      some (AnomalyPayload.backupPolicyViolation environmentId policySchedule schedule)
    else none
  else none

/-- The backupMissingAnomalyPayload variable computed at lines 356-397.
now is the unix-seconds value of time.Now(); on a FindBackupList error the
Go code logs and continues with a nil list (lines 373-379). -/
def backupMissingPayload (bsOpt : Option BackupSetting)
    (backupListResult : Except Unit (List Backup)) (now : Int) : Option AnomalyPayload :=
  match bsOpt with
  | none => none
  | some bs =>
    if bs.enabled then
      let expectedSchedule :=
        if bs.dayOfWeek = -1 then BackupPlanPolicyScheduleDaily
        else BackupPlanPolicyScheduleWeekly
      let backupMaxAge : Int :=
        if bs.dayOfWeek = -1 then 24 * 3600 else 7 * 24 * 3600
      if bs.updatedTs < now - backupMaxAge then
        let backupList : List Backup :=
          match backupListResult with
          | Except.ok l => l
          | Except.error _ => []
        let hasValidBackup : Bool :=
          match backupList with
          | b :: _ => decide (b.updatedTs ≥ now - backupMaxAge)
          | [] => false
        if hasValidBackup then none
        else some (AnomalyPayload.backupMissing expectedSchedule
               (match backupList with | b :: _ => some b.updatedTs | [] => none))
      else none
    else none

/-- Embedding of AnomalyScanner.checkBackupAnomaly
(server/anomaly_scanner.go lines 270-437): returns the ledger requests it
issues, in order.  A FindBackupSetting failure other than common.NotFound
makes the whole function return before either block (line 282).
policySchedule is the Schedule of the backup plan policy the scheduler
pre-fetched for the environment of the instance. -/
def checkBackupAnomaly (find : FindSettingResult)
    (backupListResult : Except Unit (List Backup)) (now : Int)
    (instanceId databaseId environmentId : Nat)
    (policySchedule : BackupPlanPolicySchedule) : List LedgerAction :=
  match find with
  | FindSettingResult.err => []
  | _ =>
    let bsOpt := find.setting
    let schedule := effectiveSchedule bsOpt
    (match backupPolicyViolationPayload environmentId policySchedule schedule with
     | some pl => [LedgerAction.upsert instanceId databaseId
         AnomalyType.databaseBackupPolicyViolation pl]
     | none => [LedgerAction.archive databaseId
         AnomalyType.databaseBackupPolicyViolation]) ++
    (match backupMissingPayload bsOpt backupListResult now with
     | some pl => [LedgerAction.upsert instanceId databaseId
         AnomalyType.databaseBackupMissing pl]
     | none => [LedgerAction.archive databaseId
         AnomalyType.databaseBackupMissing])

/-- Environment fields read by the scan loop (api.Environment). -/
structure ScanEnvironment where
  id : Nat
  rowStatusNormal : Bool
deriving DecidableEq, Repr

/-- Instance fields read by the scan loop, together with the oracle answer
for ComposeInstanceAdminDataSource on this instance (resolveOk is false
when the admin data source resolution fails). -/
structure ScanInstance where
  id : Nat
  environmentId : Nat
  resolveOk : Bool
deriving DecidableEq, Repr

/-- The environment attached to an instance at lines 81-88: the first
environment in the list with a matching id, and only if its row status is
normal (otherwise instance.Environment stays nil). -/
def attachedEnvironment (envs : List ScanEnvironment) (inst : ScanInstance) :
    Option ScanEnvironment :=
  match envs.find? (fun e => e.id == inst.environmentId) with
  | some e => if e.rowStatusNormal then some e else none
  | none => none

/-- Embedding of the per-instance loop of one scan cycle
(server/anomaly_scanner.go lines 80-133), returning the ids of the
instances whose databases are actually scanned, in order.  running is the
set of instance ids marked as scanning when the cycle starts (the loop is
sequential and each scan removes its mark before the next iteration, so
membership is tested against the initial set).  A failure of
ComposeInstanceAdminDataSource makes the enclosing cycle function return
(line 94), ending the loop; an instance with no attached environment or
already marked as scanning is skipped with continue. -/
def scanInstanceIds (envs : List ScanEnvironment) (running : List Nat) :
    List ScanInstance → List Nat
  | [] => []
  | inst :: rest =>
    if inst.resolveOk = false then []
    else if (attachedEnvironment envs inst).isNone then scanInstanceIds envs running rest
    else if inst.id ∈ running then scanInstanceIds envs running rest
    else inst.id :: scanInstanceIds envs running rest

/-- Splits a character list at every character satisfying p, keeping empty
pieces (like strings.Split for a one-character separator, or the pieces of
strings.FieldsFunc before empty pieces are dropped). -/
def splitByPred (p : Char → Bool) : List Char → List (List Char)
  | [] => [[]]
  | c :: cs =>
    let r := splitByPred p cs
    if p c then [] :: r
    else
      match r with
      | [] => [[c]]
      | g :: gs => (c :: g) :: gs

/-- Decimal digit run to a number; none when empty or a non-digit occurs. -/
def digitsVal : List Char → Option Nat
  | [] => none
  | cs => cs.foldlM (fun acc c =>
      if c.isDigit then some (acc * 10 + (c.toNat - 48)) else none) 0

/-- Modelled from the spec: mustParseInt of the third-party five-field cron
parser (strconv.Atoi followed by a non-negative check); the parser library
is not part of this repository.  Accepts an optional sign followed by
digits, rejecting negative values. -/
def mustParseInt : List Char → Option Nat
  | '-' :: rest =>
    (match digitsVal rest with
     | some 0 => some 0
     | _ => none)
  | '+' :: rest => digitsVal rest
  | cs => digitsVal cs

/-- Month names accepted by the cron month field, lowercased, 1-12. -/
def cronMonthNames : List (String × Nat) :=
  [("jan", 1), ("feb", 2), ("mar", 3), ("apr", 4), ("may", 5), ("jun", 6),
   ("jul", 7), ("aug", 8), ("sep", 9), ("oct", 10), ("nov", 11), ("dec", 12)]

/-- Day-of-week names accepted by the cron day-of-week field, 0-6. -/
def cronDowNames : List (String × Nat) :=
  [("sun", 0), ("mon", 1), ("tue", 2), ("wed", 3), ("thu", 4), ("fri", 5),
   ("sat", 6)]

/-- Modelled from the spec: parseIntOrName of the cron parser; the name
table is consulted with the lowercased token, falling back to an integer
parse. -/
def parseIntOrName (names : List (String × Nat)) (cs : List Char) : Option Nat :=
  match names.find? (fun nv => nv.1.toList = cs.map Char.toLower) with
  | some nv => some nv.2
  | none => mustParseInt cs

/-- Bounds and name table of one cron field. -/
structure CronFieldBounds where
  lo : Nat
  hi : Nat
  names : List (String × Nat)

/-- Modelled from the spec: getRange of the cron parser, validity only.
A range is star or question mark, a value, or value-value, with an
optional /step suffix; a star start ignores everything after a hyphen;
with an explicit step a single value extends to the upper bound; bounds
and ordering are then checked, and a zero step is rejected. -/
def cronRangeOk (expr : List Char) (r : CronFieldBounds) : Bool :=
  match splitByPred (fun c => c = '/') expr with
  | [] => false
  | rangePart :: stepParts =>
    let lowAndHigh := splitByPred (fun c => c = '-') rangePart
    let se : Option (Nat × Nat) :=
      match lowAndHigh with
      | [] => none
      | a :: rest =>
        if a = ['*'] ∨ a = ['?'] then some (r.lo, r.hi)
        else
          match parseIntOrName r.names a with
          | none => none
          | some s =>
            match rest with
            | [] => some (s, s)
            | [b] =>
              (match parseIntOrName r.names b with
               | none => none
               | some e => some (s, e))
            | _ => none
    match se with
    | none => false
    | some se =>
      match stepParts with
      | [] => decide (r.lo ≤ se.1 ∧ se.2 ≤ r.hi ∧ se.1 ≤ se.2)
      | [stepStr] =>
        (match mustParseInt stepStr with
         | none => false
         | some step =>
           let e2 := if lowAndHigh.length = 1 then r.hi else se.2
           decide (step ≠ 0 ∧ r.lo ≤ se.1 ∧ e2 ≤ r.hi ∧ se.1 ≤ e2))
      | _ => false

/-- Modelled from the spec: getField of the cron parser, validity only.
A field is a comma-separated list of ranges; empty pieces are dropped. -/
def cronFieldOk (field : List Char) (r : CronFieldBounds) : Bool :=
  ((splitByPred (fun c => c = ',') field).filter (fun w => w ≠ [])).all
    (fun expr => cronRangeOk expr r)

/-- The five fields of the window cron grammar: minute 0-59, hour 0-23,
day-of-month 1-31, month 1-12 with names, day-of-week 0-6 with names
(the parser options of GetWindowCronParser). -/
def windowCronFieldBounds : List CronFieldBounds :=
  [⟨0, 59, []⟩, ⟨0, 23, []⟩, ⟨1, 31, []⟩, ⟨1, 12, cronMonthNames⟩,
   ⟨0, 6, cronDowNames⟩]

/-- Modelled from the spec: whether the five-field minute-resolution cron
parser returned by GetWindowCronParser accepts the expression (the parser
library is not part of this repository).  An empty expression is rejected,
a descriptor starting with an at sign is rejected because the descriptor
option is not enabled, and otherwise the expression must have exactly five
whitespace-separated fields, each valid for its bounds. -/
def cronParseOk (spec : String) : Bool :=
  match spec.toList with
  | [] => false
  | c :: cs =>
    if c = '@' then false
    else
      let fs := (splitByPred Char.isWhitespace (c :: cs)).filter (fun w => w ≠ [])
      fs.length == 5 && (fs.zip windowCronFieldBounds).all (fun p => cronFieldOk p.1 p.2)

/-- JSON values, for modelling the encoding/json serialization of the
policy payload structs. -/
inductive Json
  | null
  | bool (b : Bool)
  | num (n : Int)
  | str (s : String)
  | arr (elems : List Json)
  | obj (fields : List (String × Json))

/-- A Go payload string as seen through the JSON parser: the empty string,
a string that parses as the JSON value j, or a string that is not valid
JSON. -/
inductive PayloadStr
  | empty
  | json (j : Json)
  | malformed

/-- PipelineApprovalValue is a Go string type. -/
abbrev PipelineApprovalValue := String

/-- Constant api.PipelineApprovalValueManualNever. -/
def PipelineApprovalValueManualNever : PipelineApprovalValue := "MANUAL_APPROVAL_NEVER"

/-- Constant api.PipelineApprovalValueManualAlways. -/
def PipelineApprovalValueManualAlways : PipelineApprovalValue := "MANUAL_APPROVAL_ALWAYS"

/-- WindowCron is a Go string type holding a cron expression. -/
abbrev WindowCron := String

/-- Constant api.WindowCronUnset, the ANYTIME allowed window cron. -/
def WindowCronUnset : WindowCron := ""

/-- WindowType is a Go int type; Allow = 0, Deny = 1, Unknown = 2. -/
abbrev WindowType := Int

/-- Constant api.WindowTypeAllow. -/
def WindowTypeAllow : WindowType := 0

/-- Constant api.WindowTypeDeny. -/
def WindowTypeDeny : WindowType := 1

/-- Constant api.WindowTypeUnknown. -/
def WindowTypeUnknown : WindowType := 2

/-- PolicyType is a Go string type. -/
abbrev PolicyType := String

/-- Constant api.PolicyTypePipelineApproval. -/
def PolicyTypePipelineApproval : PolicyType := "bb.policy.pipeline-approval"

/-- Constant api.PolicyTypeBackupPlan. -/
def PolicyTypeBackupPlan : PolicyType := "bb.policy.backup-plan"

/-- Constant api.PolicyTypeWindow. -/
def PolicyTypeWindow : PolicyType := "bb.policy.window"

/-- Membership in the api.PolicyTypes set. -/
def PolicyTypes (t : PolicyType) : Bool :=
  t == PolicyTypePipelineApproval || t == PolicyTypeBackupPlan || t == PolicyTypeWindow

/-- api.PipelineApprovalPolicy. -/
structure PipelineApprovalPolicy where
  value : PipelineApprovalValue
deriving DecidableEq, Repr

/-- api.BackupPlanPolicy. -/
structure BackupPlanPolicy where
  schedule : BackupPlanPolicySchedule
deriving DecidableEq, Repr

/-- api.WindowPolicy. -/
structure WindowPolicy where
  windowType : WindowType
  windowCron : WindowCron
deriving DecidableEq, Repr

/-- Go json.Unmarshal of a JSON value into a string struct field holding
cur: a JSON string replaces it, JSON null leaves it, anything else is a
type error. -/
def decodeStringInto (v : Json) (cur : String) : Option String :=
  match v with
  | Json.str s => some s
  | Json.null => some cur
  | _ => none

/-- Go json.Unmarshal of a JSON value into an int struct field holding
cur: a JSON number replaces it, JSON null leaves it, anything else is a
type error. -/
def decodeIntInto (v : Json) (cur : Int) : Option Int :=
  match v with
  | Json.num n => some n
  | Json.null => some cur
  | _ => none

/-- Field loop of json.Unmarshal into PipelineApprovalPolicy: the json tag
of the only field is value; later duplicates overwrite earlier ones;
unknown keys are ignored.  Field names are matched exactly (Go also falls
back to a case-insensitive match, which nothing here exercises). -/
def decodePipelineApprovalFields :
    List (String × Json) → PipelineApprovalPolicy → Option PipelineApprovalPolicy
  | [], pa => some pa
  | (k, v) :: rest, pa =>
    if k = "value" then
      match decodeStringInto v pa.value with
      | some s => decodePipelineApprovalFields rest ⟨s⟩
      | none => none
    else decodePipelineApprovalFields rest pa

/-- Embedding of api.UnmarshalPipelineApprovalPolicy: json.Unmarshal of the
payload string into a zero PipelineApprovalPolicy.  The top level must be
a JSON object or null; the empty string and non-JSON strings are errors. -/
def UnmarshalPipelineApprovalPolicy : PayloadStr → Option PipelineApprovalPolicy
  | PayloadStr.json Json.null => some ⟨""⟩
  | PayloadStr.json (Json.obj fields) => decodePipelineApprovalFields fields ⟨""⟩
  | _ => none

/-- Field loop of json.Unmarshal into BackupPlanPolicy: the json tag of the
only field is schedule. -/
def decodeBackupPlanFields :
    List (String × Json) → BackupPlanPolicy → Option BackupPlanPolicy
  | [], bp => some bp
  | (k, v) :: rest, bp =>
    if k = "schedule" then
      match decodeStringInto v bp.schedule with
      | some s => decodeBackupPlanFields rest ⟨s⟩
      | none => none
    else decodeBackupPlanFields rest bp

/-- Embedding of api.UnmarshalBackupPlanPolicy. -/
def UnmarshalBackupPlanPolicy : PayloadStr → Option BackupPlanPolicy
  | PayloadStr.json Json.null => some ⟨""⟩
  | PayloadStr.json (Json.obj fields) => decodeBackupPlanFields fields ⟨""⟩
  | _ => none

/-- Field loop of json.Unmarshal into WindowPolicy: json tags windowType
(an int field) and windowCron (a string field). -/
def decodeWindowFields : List (String × Json) → WindowPolicy → Option WindowPolicy
  | [], wp => some wp
  | (k, v) :: rest, wp =>
    if k = "windowType" then
      match decodeIntInto v wp.windowType with
      | some n => decodeWindowFields rest ⟨n, wp.windowCron⟩
      | none => none
    else if k = "windowCron" then
      match decodeStringInto v wp.windowCron with
      | some s => decodeWindowFields rest ⟨wp.windowType, s⟩
      | none => none
    else decodeWindowFields rest wp

/-- Embedding of api.UnmarshalWindowPolicy.  The zero WindowPolicy is
windowType 0 (Allow) with an empty cron. -/
def UnmarshalWindowPolicy : PayloadStr → Option WindowPolicy
  | PayloadStr.json Json.null => some ⟨0, ""⟩
  | PayloadStr.json (Json.obj fields) => decodeWindowFields fields ⟨0, ""⟩
  | _ => none

/-- json.Marshal of PipelineApprovalPolicy, as a JSON value. -/
def PipelineApprovalPolicy.toJson (pa : PipelineApprovalPolicy) : Json :=
  Json.obj [("value", Json.str pa.value)]

/-- The String method of PipelineApprovalPolicy: json.Marshal never fails
on it, and its output is a non-empty valid JSON text. -/
def PipelineApprovalPolicy.string (pa : PipelineApprovalPolicy) : PayloadStr :=
  PayloadStr.json pa.toJson

/-- json.Marshal of BackupPlanPolicy, as a JSON value. -/
def BackupPlanPolicy.toJson (bp : BackupPlanPolicy) : Json :=
  Json.obj [("schedule", Json.str bp.schedule)]

/-- The String method of BackupPlanPolicy. -/
def BackupPlanPolicy.string (bp : BackupPlanPolicy) : PayloadStr :=
  PayloadStr.json bp.toJson

/-- json.Marshal of WindowPolicy, as a JSON value. -/
def WindowPolicy.toJson (wp : WindowPolicy) : Json :=
  Json.obj [("windowType", Json.num wp.windowType), ("windowCron", Json.str wp.windowCron)]

/-- The String method of WindowPolicy. -/
def WindowPolicy.string (wp : WindowPolicy) : PayloadStr :=
  PayloadStr.json wp.toJson

/-- Embedding of api.ValidatePolicy: true when the function returns nil.
Unknown types are rejected; an empty payload always validates; otherwise
the payload must unmarshal and, per type, the approval value must be one
of the two manual values, the backup schedule one of the three schedule
values, and the window cron must be accepted by the cron parser of
GetWindowCronParser (the windowType field is not checked). -/
def ValidatePolicy (pType : PolicyType) (payload : PayloadStr) : Bool :=
  if PolicyTypes pType = false then false
  else
    match payload with
    | PayloadStr.empty => true
    | _ =>
      if pType = PolicyTypePipelineApproval then
        match UnmarshalPipelineApprovalPolicy payload with
        | none => false
        | some pa =>
          decide (pa.value = PipelineApprovalValueManualNever ∨
            pa.value = PipelineApprovalValueManualAlways)
      else if pType = PolicyTypeBackupPlan then
        match UnmarshalBackupPlanPolicy payload with
        | none => false
        | some bp =>
          decide (bp.schedule = BackupPlanPolicyScheduleUnset ∨
            bp.schedule = BackupPlanPolicyScheduleDaily ∨
            bp.schedule = BackupPlanPolicyScheduleWeekly)
      else if pType = PolicyTypeWindow then
        match UnmarshalWindowPolicy payload with
        | none => false
        | some wp => cronParseOk wp.windowCron
      else true

/-- Embedding of api.GetDefaultPolicy: the serialized default payload per
type, the empty string for unknown types. -/
def GetDefaultPolicy (pType : PolicyType) : PayloadStr :=
  if pType = PolicyTypePipelineApproval then
    PipelineApprovalPolicy.string ⟨PipelineApprovalValueManualAlways⟩
  else if pType = PolicyTypeBackupPlan then
    BackupPlanPolicy.string ⟨BackupPlanPolicyScheduleUnset⟩
  else if pType = PolicyTypeWindow then
    WindowPolicy.string ⟨WindowTypeUnknown, WindowCronUnset⟩
  else PayloadStr.empty

/-- C1: claim that when the live schema dump matches the latest migration
history record byte for byte, checkDatabaseAnomaly issues an archive
request for the DatabaseSchemaDrift type of that database.  Evaluated at a
concrete matching input, the issued requests are two archives of type
DatabaseConnection (the second from line 255, inside the drift branch,
whose own failure log labels the type DatabaseSchemaDrift) and no request
of type DatabaseSchemaDrift occurs at all. -/
theorem c1_schema_match_archives_connection_not_drift :
    checkDatabaseAnomaly
        ⟨Except.ok (), Except.ok "CREATE TABLE t (id INT);",
          Except.ok [⟨"v1", "CREATE TABLE t (id INT);"⟩]⟩ 7 42 =
      [LedgerAction.archive 42 AnomalyType.databaseConnection,
       LedgerAction.archive 42 AnomalyType.databaseConnection] ∧
    LedgerAction.archive 42 AnomalyType.databaseSchemaDrift ∉
      checkDatabaseAnomaly
        ⟨Except.ok (), Except.ok "CREATE TABLE t (id INT);",
          Except.ok [⟨"v1", "CREATE TABLE t (id INT);"⟩]⟩ 7 42 := by
  decide

/-- C2 counterexample: with two resolvable-environment instances where the
first fails admin data-source resolution, nothing at all is scanned this
cycle; in particular the second instance, which would resolve fine, is not
scanned, refuting the claim that only the failing instance is skipped. -/
theorem c2_counterexample :
    scanInstanceIds [⟨1, true⟩] [] [⟨10, 1, false⟩, ⟨11, 1, true⟩] = [] ∧
    (11 : Nat) ∉ scanInstanceIds [⟨1, true⟩] [] [⟨10, 1, false⟩, ⟨11, 1, true⟩] := by
  decide

/-- C2 amended: a failure to resolve the admin data-source of an instance
makes the cycle function return (line 94), so the scanned instances are
exactly those scanned from the prefix before the first failing instance;
no instance after it is scanned this cycle. -/
theorem c2_resolution_failure_aborts_cycle (envs : List ScanEnvironment)
    (running : List Nat) (pre post : List ScanInstance) (inst : ScanInstance)
    (h : inst.resolveOk = false) :
    scanInstanceIds envs running (pre ++ inst :: post) =
      scanInstanceIds envs running pre := by
  induction pre with
  | nil => simp [scanInstanceIds, h]
  | cons a as ih =>
    simp only [List.cons_append, scanInstanceIds]
    split
    · rfl
    · split
      · exact ih
      · split
        · exact ih
        · exact congrArg (List.cons a.id) ih

/-- C2 witness: the amended statement at a concrete input. -/
theorem c2_witness :
    scanInstanceIds [⟨1, true⟩] []
        ([⟨11, 1, true⟩] ++ (⟨10, 1, false⟩ : ScanInstance) :: [⟨12, 1, true⟩]) =
      scanInstanceIds [⟨1, true⟩] [] [⟨11, 1, true⟩] :=
  c2_resolution_failure_aborts_cycle [⟨1, true⟩] [] [⟨11, 1, true⟩]
    [⟨12, 1, true⟩] ⟨10, 1, false⟩ rfl

/-- C9: when opening the driver connection fails, checkDatabaseAnomaly
issues exactly one request, the upsert of an active DatabaseConnection
anomaly carrying the error detail, and none of its requests concerns the
DatabaseSchemaDrift type. -/
theorem c9_connection_failure_gates_drift (d : DriverOutcome)
    (instanceId databaseId : Nat) (detail : String)
    (h : d.connect = Except.error detail) :
    checkDatabaseAnomaly d instanceId databaseId =
      [LedgerAction.upsert instanceId databaseId AnomalyType.databaseConnection
        (AnomalyPayload.connection detail)] ∧
    ∀ a ∈ checkDatabaseAnomaly d instanceId databaseId,
      a.anomalyType ≠ AnomalyType.databaseSchemaDrift := by
  have e : checkDatabaseAnomaly d instanceId databaseId =
      [LedgerAction.upsert instanceId databaseId AnomalyType.databaseConnection
        (AnomalyPayload.connection detail)] := by
    unfold checkDatabaseAnomaly
    rw [h]
  refine ⟨e, ?_⟩
  intro a ha
  rw [e] at ha
  simp only [List.mem_singleton] at ha
  subst ha
  simp [LedgerAction.anomalyType]

/-- C9 witness: the connection-failure behavior at a concrete input. -/
theorem c9_witness :
    checkDatabaseAnomaly ⟨Except.error "dial tcp refused", Except.ok "", Except.ok []⟩ 1 2 =
      [LedgerAction.upsert 1 2 AnomalyType.databaseConnection
        (AnomalyPayload.connection "dial tcp refused")] :=
  (c9_connection_failure_gates_drift
    ⟨Except.error "dial tcp refused", Except.ok "", Except.ok []⟩ 1 2 "dial tcp refused" rfl).1

/-- Helper: on a non-error setting lookup, checkBackupAnomaly is the
policy-violation block followed by the backup-missing block. -/
theorem checkBackupAnomaly_blocks (find : FindSettingResult)
    (blr : Except Unit (List Backup)) (now : Int) (i db env : Nat)
    (policy : BackupPlanPolicySchedule) (h : find ≠ FindSettingResult.err) :
    checkBackupAnomaly find blr now i db env policy =
      (match backupPolicyViolationPayload env policy (effectiveSchedule find.setting) with
       | some pl => [LedgerAction.upsert i db AnomalyType.databaseBackupPolicyViolation pl]
       | none => [LedgerAction.archive db AnomalyType.databaseBackupPolicyViolation]) ++
      (match backupMissingPayload find.setting blr now with
       | some pl => [LedgerAction.upsert i db AnomalyType.databaseBackupMissing pl]
       | none => [LedgerAction.archive db AnomalyType.databaseBackupMissing]) := by
  cases find with
  | err => exact absurd rfl h
  | notFound => rfl
  | found bs => rfl

/-- Helper: the nested conditionals computing the violation payload equal
the flat violation condition. -/
theorem backupPolicyViolationPayload_eq (env : Nat)
    (policy schedule : BackupPlanPolicySchedule) :
    backupPolicyViolationPayload env policy schedule =
      if policy ≠ BackupPlanPolicyScheduleUnset ∧
          ((policy = BackupPlanPolicyScheduleDaily ∧
              schedule ≠ BackupPlanPolicyScheduleDaily) ∨
           (policy = BackupPlanPolicyScheduleWeekly ∧
              schedule = BackupPlanPolicyScheduleUnset))
      then some (AnomalyPayload.backupPolicyViolation env policy schedule)
      else none := by
  unfold backupPolicyViolationPayload
  split_ifs <;> first | rfl | tauto

/-- Helper: inside the grace period (the setting updated no earlier than
now minus the max age) no missing payload is computed. -/
theorem backupMissingPayload_grace (bs : BackupSetting)
    (blr : Except Unit (List Backup)) (now : Int)
    (hg : ¬ (bs.updatedTs < now -
      (if bs.dayOfWeek = -1 then (24 : Int) * 3600 else 7 * 24 * 3600))) :
    backupMissingPayload (some bs) blr now = none := by
  simp only [backupMissingPayload]
  by_cases he : bs.enabled = true
  · rw [if_pos he, if_neg hg]
  · rw [if_neg he]

/-- Helper: with the setting disabled no missing payload is computed. -/
theorem backupMissingPayload_of_disabled (bs : BackupSetting)
    (blr : Except Unit (List Backup)) (now : Int) (he : bs.enabled = false) :
    backupMissingPayload (some bs) blr now = none := by
  simp only [backupMissingPayload]
  rw [if_neg (by simp [he])]

/-- Helper: a most-recent Done backup within the max age means no missing
payload is computed. -/
theorem backupMissingPayload_of_validBackup (bs : BackupSetting) (b : Backup)
    (l : List Backup) (now : Int)
    (hv : b.updatedTs ≥ now -
      (if bs.dayOfWeek = -1 then (24 : Int) * 3600 else 7 * 24 * 3600)) :
    backupMissingPayload (some bs) (Except.ok (b :: l)) now = none := by
  simp only [backupMissingPayload]
  by_cases he : bs.enabled = true
  · rw [if_pos he]
    by_cases hgr : bs.updatedTs < now -
        (if bs.dayOfWeek = -1 then (24 : Int) * 3600 else 7 * 24 * 3600)
    · rw [if_pos hgr, if_pos (decide_eq_true hv)]
    · rw [if_neg hgr]
  · rw [if_neg he]

/-- Helper: with the setting enabled and past the grace period, a failed
backup-list lookup is treated as an empty list, so a missing payload with
no lastBackupTs is computed. -/
theorem backupMissingPayload_of_listError (bs : BackupSetting) (now : Int)
    (he : bs.enabled = true)
    (hg : bs.updatedTs < now -
      (if bs.dayOfWeek = -1 then (24 : Int) * 3600 else 7 * 24 * 3600)) :
    backupMissingPayload (some bs) (Except.error ()) now =
      some (AnomalyPayload.backupMissing
        (if bs.dayOfWeek = -1 then BackupPlanPolicyScheduleDaily
         else BackupPlanPolicyScheduleWeekly) none) := by
  simp only [backupMissingPayload]
  rw [if_pos he, if_pos hg, if_neg Bool.false_ne_true]

/-- C5: the detector upserts an active DatabaseBackupPolicyViolation
anomaly exactly when the required schedule is not Unset and either the
requirement is Daily with a non-Daily effective schedule or the
requirement is Weekly with an Unset effective schedule, and otherwise
archives the violation anomaly; the rest of the issued requests concern
only the DatabaseBackupMissing type. -/
theorem c5_backup_policy_violation (find : FindSettingResult)
    (blr : Except Unit (List Backup)) (now : Int) (i db env : Nat)
    (policy : BackupPlanPolicySchedule) (h : find ≠ FindSettingResult.err) :
    ∃ rest, checkBackupAnomaly find blr now i db env policy =
        (if policy ≠ BackupPlanPolicyScheduleUnset ∧
            ((policy = BackupPlanPolicyScheduleDaily ∧
                effectiveSchedule find.setting ≠ BackupPlanPolicyScheduleDaily) ∨
             (policy = BackupPlanPolicyScheduleWeekly ∧
                effectiveSchedule find.setting = BackupPlanPolicyScheduleUnset))
         then LedgerAction.upsert i db AnomalyType.databaseBackupPolicyViolation
                (AnomalyPayload.backupPolicyViolation env policy
                  (effectiveSchedule find.setting))
         else LedgerAction.archive db AnomalyType.databaseBackupPolicyViolation) :: rest ∧
      ∀ a ∈ rest, a.anomalyType = AnomalyType.databaseBackupMissing := by
  rw [checkBackupAnomaly_blocks find blr now i db env policy h,
    backupPolicyViolationPayload_eq]
  by_cases hc : policy ≠ BackupPlanPolicyScheduleUnset ∧
      ((policy = BackupPlanPolicyScheduleDaily ∧
          effectiveSchedule find.setting ≠ BackupPlanPolicyScheduleDaily) ∨
       (policy = BackupPlanPolicyScheduleWeekly ∧
          effectiveSchedule find.setting = BackupPlanPolicyScheduleUnset))
  · rw [if_pos hc, if_pos hc]
    refine ⟨_, rfl, ?_⟩
    cases hm : backupMissingPayload find.setting blr now <;>
      simp [hm, LedgerAction.anomalyType]
  · rw [if_neg hc, if_neg hc]
    refine ⟨_, rfl, ?_⟩
    cases hm : backupMissingPayload find.setting blr now <;>
      simp [hm, LedgerAction.anomalyType]

/-- C5 witness: an enabled weekly setting under a Daily requirement is a
violation, reported with expected Daily and actual Weekly. -/
theorem c5_witness :
    (checkBackupAnomaly (FindSettingResult.found ⟨true, 2, 3, 0⟩) (Except.ok [])
        1000000 1 2 3 BackupPlanPolicyScheduleDaily).head? =
      some (LedgerAction.upsert 1 2 AnomalyType.databaseBackupPolicyViolation
        (AnomalyPayload.backupPolicyViolation 3 BackupPlanPolicyScheduleDaily
          BackupPlanPolicyScheduleWeekly)) := by
  obtain ⟨rest, hres, -⟩ := c5_backup_policy_violation
    (FindSettingResult.found ⟨true, 2, 3, 0⟩) (Except.ok []) 1000000 1 2 3
    BackupPlanPolicyScheduleDaily (by decide)
  rw [hres, if_pos (by decide)]
  rfl

/-- C4 counterexample: a backup setting enabled with dayOfWeek -1 updated
one thousand seconds before now (inside the 24 hour grace period), with no
backups: the claim says no DatabaseBackupMissing request is issued, but an
archive request for that type is issued. -/
theorem c4_counterexample :
    LedgerAction.archive 2 AnomalyType.databaseBackupMissing ∈
      checkBackupAnomaly (FindSettingResult.found ⟨true, 2, -1, 999000⟩) (Except.ok [])
        1000000 1 2 3 BackupPlanPolicyScheduleDaily := by
  decide

/-- C4 amended: when the setting was updated no earlier than now minus the
max age, the detector upserts no DatabaseBackupMissing anomaly but does
issue an archive request for that type, clearing any active missing-backup
anomaly. -/
theorem c4_grace_period_archives_missing (blr : Except Unit (List Backup))
    (now : Int) (i db env : Nat) (policy : BackupPlanPolicySchedule)
    (bs : BackupSetting)
    (hg : ¬ (bs.updatedTs < now -
      (if bs.dayOfWeek = -1 then (24 : Int) * 3600 else 7 * 24 * 3600))) :
    LedgerAction.archive db AnomalyType.databaseBackupMissing ∈
      checkBackupAnomaly (FindSettingResult.found bs) blr now i db env policy ∧
    ∀ pl, LedgerAction.upsert i db AnomalyType.databaseBackupMissing pl ∉
      checkBackupAnomaly (FindSettingResult.found bs) blr now i db env policy := by
  rw [checkBackupAnomaly_blocks _ blr now i db env policy
    (fun hh => FindSettingResult.noConfusion hh)]
  have hm : backupMissingPayload (FindSettingResult.found bs).setting blr now = none :=
    backupMissingPayload_grace bs blr now hg
  constructor
  · cases hv : backupPolicyViolationPayload env policy
        (effectiveSchedule (FindSettingResult.found bs).setting) <;> simp [hv, hm]
  · intro pl
    cases hv : backupPolicyViolationPayload env policy
        (effectiveSchedule (FindSettingResult.found bs).setting) <;> simp [hv, hm]

/-- C4 witness: the amended statement at a concrete input (weekly setting
updated inside its seven-day grace period). -/
theorem c4_witness :
    LedgerAction.archive 2 AnomalyType.databaseBackupMissing ∈
      checkBackupAnomaly (FindSettingResult.found ⟨true, 2, 5, 999000⟩) (Except.ok [])
        1000000 1 2 3 BackupPlanPolicyScheduleWeekly :=
  (c4_grace_period_archives_missing (Except.ok []) 1000000 1 2 3
    BackupPlanPolicyScheduleWeekly ⟨true, 2, 5, 999000⟩ (by decide)).1

/-- C3 counterexample: with an enabled setting past its grace period and a
failing backup-list lookup, the claim says the DatabaseBackupMissing type
is left untouched, but an upsert request for it is issued. -/
theorem c3_counterexample :
    LedgerAction.upsert 1 2 AnomalyType.databaseBackupMissing
        (AnomalyPayload.backupMissing BackupPlanPolicyScheduleDaily none) ∈
      checkBackupAnomaly (FindSettingResult.found ⟨true, 2, -1, 0⟩) (Except.error ())
        1000000 1 2 3 BackupPlanPolicyScheduleDaily := by
  decide

/-- C3 amended: on a backup-list lookup error the detector logs and
proceeds with an empty list, so it upserts an active DatabaseBackupMissing
anomaly carrying the expected schedule and no lastBackupTs, and issues no
archive request for that type. -/
theorem c3_backup_lookup_error_upserts_missing (now : Int) (i db env : Nat)
    (policy : BackupPlanPolicySchedule) (bs : BackupSetting)
    (he : bs.enabled = true)
    (hg : bs.updatedTs < now -
      (if bs.dayOfWeek = -1 then (24 : Int) * 3600 else 7 * 24 * 3600)) :
    LedgerAction.upsert i db AnomalyType.databaseBackupMissing
        (AnomalyPayload.backupMissing
          (if bs.dayOfWeek = -1 then BackupPlanPolicyScheduleDaily
           else BackupPlanPolicyScheduleWeekly) none) ∈
      checkBackupAnomaly (FindSettingResult.found bs) (Except.error ()) now i db env policy ∧
    LedgerAction.archive db AnomalyType.databaseBackupMissing ∉
      checkBackupAnomaly (FindSettingResult.found bs) (Except.error ()) now i db env policy := by
  rw [checkBackupAnomaly_blocks _ _ now i db env policy
    (fun hh => FindSettingResult.noConfusion hh)]
  have hm : backupMissingPayload (FindSettingResult.found bs).setting (Except.error ()) now =
      some (AnomalyPayload.backupMissing
        (if bs.dayOfWeek = -1 then BackupPlanPolicyScheduleDaily
         else BackupPlanPolicyScheduleWeekly) none) :=
    backupMissingPayload_of_listError bs now he hg
  constructor
  · cases hv : backupPolicyViolationPayload env policy
        (effectiveSchedule (FindSettingResult.found bs).setting) <;> simp [hv, hm]
  · cases hv : backupPolicyViolationPayload env policy
        (effectiveSchedule (FindSettingResult.found bs).setting) <;> simp [hv, hm]

/-- C3 witness: the amended statement at a concrete input. -/
theorem c3_witness :
    LedgerAction.upsert 1 2 AnomalyType.databaseBackupMissing
        (AnomalyPayload.backupMissing BackupPlanPolicyScheduleDaily none) ∈
      checkBackupAnomaly (FindSettingResult.found ⟨true, 3, -1, 0⟩) (Except.error ())
        1000000 1 2 3 BackupPlanPolicyScheduleUnset :=
  (c3_backup_lookup_error_upserts_missing 1000000 1 2 3 BackupPlanPolicyScheduleUnset
    ⟨true, 3, -1, 0⟩ rfl (by decide)).1

/-- C10 counterexample: an enabled setting with hour -1 (and dayOfWeek -1)
past its grace period with no backups: the claim says an archive request
for DatabaseBackupMissing is always issued in the hour -1 case, but none
is (the missing-backup block only tests enabled, not hour, and here it
upserts instead). -/
theorem c10_counterexample :
    LedgerAction.archive 2 AnomalyType.databaseBackupMissing ∉
      checkBackupAnomaly (FindSettingResult.found ⟨true, -1, -1, 0⟩) (Except.ok [])
        1000000 1 2 3 BackupPlanPolicyScheduleUnset := by
  decide

/-- C10 amended: whenever the backup-missing check computes no payload,
namely when the setting row is absent, or disabled, or inside its grace
period, or a valid recent backup heads the Done backup list, the detector
issues an archive request for the DatabaseBackupMissing type of the
database and upserts no anomaly of that type (the hour field plays no role
in this check). -/
theorem c10_no_missing_payload_archives (find : FindSettingResult)
    (blr : Except Unit (List Backup)) (now : Int) (i db env : Nat)
    (policy : BackupPlanPolicySchedule)
    (h : find = FindSettingResult.notFound ∨
      ∃ bs, find = FindSettingResult.found bs ∧
        (bs.enabled = false ∨
         ¬ (bs.updatedTs < now -
           (if bs.dayOfWeek = -1 then (24 : Int) * 3600 else 7 * 24 * 3600)) ∨
         ∃ b l, blr = Except.ok (b :: l) ∧
           b.updatedTs ≥ now -
             (if bs.dayOfWeek = -1 then (24 : Int) * 3600 else 7 * 24 * 3600))) :
    LedgerAction.archive db AnomalyType.databaseBackupMissing ∈
      checkBackupAnomaly find blr now i db env policy ∧
    ∀ pl, LedgerAction.upsert i db AnomalyType.databaseBackupMissing pl ∉
      checkBackupAnomaly find blr now i db env policy := by
  rcases h with h | ⟨bs, hf, hc⟩
  · subst h
    rw [checkBackupAnomaly_blocks _ blr now i db env policy
      (fun hh => FindSettingResult.noConfusion hh)]
    have hm : backupMissingPayload FindSettingResult.notFound.setting blr now = none := rfl
    constructor
    · cases hv : backupPolicyViolationPayload env policy
          (effectiveSchedule FindSettingResult.notFound.setting) <;> simp [hv, hm]
    · intro pl
      cases hv : backupPolicyViolationPayload env policy
          (effectiveSchedule FindSettingResult.notFound.setting) <;> simp [hv, hm]
  · subst hf
    rw [checkBackupAnomaly_blocks _ blr now i db env policy
      (fun hh => FindSettingResult.noConfusion hh)]
    have hm : backupMissingPayload (FindSettingResult.found bs).setting blr now = none := by
      rcases hc with he | hg | ⟨b, l, hb, hv2⟩
      · exact backupMissingPayload_of_disabled bs blr now he
      · exact backupMissingPayload_grace bs blr now hg
      · subst hb
        exact backupMissingPayload_of_validBackup bs b l now hv2
    constructor
    · cases hv : backupPolicyViolationPayload env policy
          (effectiveSchedule (FindSettingResult.found bs).setting) <;> simp [hv, hm]
    · intro pl
      cases hv : backupPolicyViolationPayload env policy
          (effectiveSchedule (FindSettingResult.found bs).setting) <;> simp [hv, hm]

/-- C10 witness: disabling the backup setting makes the next scan issue
the archive request clearing any active missing-backup anomaly. -/
theorem c10_witness :
    LedgerAction.archive 2 AnomalyType.databaseBackupMissing ∈
      checkBackupAnomaly (FindSettingResult.found ⟨false, 2, -1, 0⟩) (Except.ok [])
        1000000 1 2 3 BackupPlanPolicyScheduleUnset :=
  (c10_no_missing_payload_archives (FindSettingResult.found ⟨false, 2, -1, 0⟩)
    (Except.ok []) 1000000 1 2 3 BackupPlanPolicyScheduleUnset
    (Or.inr ⟨⟨false, 2, -1, 0⟩, rfl, Or.inl rfl⟩)).1

/-- Helper: on a non-empty payload, validation of an approval policy is
exactly unmarshalling success plus the manual-value constraint. -/
theorem validate_approval_nonempty (p : PayloadStr) (hp : p ≠ PayloadStr.empty) :
    ValidatePolicy PolicyTypePipelineApproval p = true ↔
      ∃ pa, UnmarshalPipelineApprovalPolicy p = some pa ∧
        (pa.value = PipelineApprovalValueManualNever ∨
         pa.value = PipelineApprovalValueManualAlways) := by
  cases p with
  | empty => exact absurd rfl hp
  | json j =>
    cases hu : UnmarshalPipelineApprovalPolicy (PayloadStr.json j) with
    | none => simp +decide [ValidatePolicy, hu]
    | some pa => simp +decide [ValidatePolicy, hu]
  | malformed => simp +decide [ValidatePolicy, UnmarshalPipelineApprovalPolicy]

/-- Helper: on a non-empty payload, validation of a backup plan policy is
exactly unmarshalling success plus the schedule-value constraint. -/
theorem validate_backup_plan_nonempty (p : PayloadStr) (hp : p ≠ PayloadStr.empty) :
    ValidatePolicy PolicyTypeBackupPlan p = true ↔
      ∃ bp, UnmarshalBackupPlanPolicy p = some bp ∧
        (bp.schedule = BackupPlanPolicyScheduleUnset ∨
         bp.schedule = BackupPlanPolicyScheduleDaily ∨
         bp.schedule = BackupPlanPolicyScheduleWeekly) := by
  cases p with
  | empty => exact absurd rfl hp
  | json j =>
    cases hu : UnmarshalBackupPlanPolicy (PayloadStr.json j) with
    | none => simp +decide [ValidatePolicy, hu]
    | some bp => simp +decide [ValidatePolicy, hu]
  | malformed => simp +decide [ValidatePolicy, UnmarshalBackupPlanPolicy]

/-- Helper: on a non-empty payload, validation of a window policy is
exactly unmarshalling success plus cron-parser acceptance. -/
theorem validate_window_nonempty (p : PayloadStr) (hp : p ≠ PayloadStr.empty) :
    ValidatePolicy PolicyTypeWindow p = true ↔
      ∃ wp, UnmarshalWindowPolicy p = some wp ∧ cronParseOk wp.windowCron = true := by
  cases p with
  | empty => exact absurd rfl hp
  | json j =>
    cases hu : UnmarshalWindowPolicy (PayloadStr.json j) with
    | none => simp +decide [ValidatePolicy, hu]
    | some wp => simp +decide [ValidatePolicy, hu]
  | malformed => simp +decide [ValidatePolicy, UnmarshalWindowPolicy]

/-- C6: ValidatePolicy accepts every known type with an empty payload,
rejects every unknown type for any payload, and accepts a non-empty
payload of a known type exactly when it unmarshals into the shape of the
type and satisfies the type constraints: approval value among the two
manual values, backup schedule among the three schedule values, window
cron accepted by the five-field parser; in particular a window payload
with a cron of five stars validates and one with the text not-a-cron is
rejected. -/
theorem c6_validate_policy :
    (∀ t : PolicyType, PolicyTypes t = true →
      ValidatePolicy t PayloadStr.empty = true) ∧
    (∀ (t : PolicyType) (p : PayloadStr), PolicyTypes t = false →
      ValidatePolicy t p = false) ∧
    (∀ p : PayloadStr, p ≠ PayloadStr.empty →
      ((ValidatePolicy PolicyTypePipelineApproval p = true ↔
         ∃ pa, UnmarshalPipelineApprovalPolicy p = some pa ∧
           (pa.value = PipelineApprovalValueManualNever ∨
            pa.value = PipelineApprovalValueManualAlways)) ∧
       (ValidatePolicy PolicyTypeBackupPlan p = true ↔
         ∃ bp, UnmarshalBackupPlanPolicy p = some bp ∧
           (bp.schedule = BackupPlanPolicyScheduleUnset ∨
            bp.schedule = BackupPlanPolicyScheduleDaily ∨
            bp.schedule = BackupPlanPolicyScheduleWeekly)) ∧
       (ValidatePolicy PolicyTypeWindow p = true ↔
         ∃ wp, UnmarshalWindowPolicy p = some wp ∧
           cronParseOk wp.windowCron = true))) ∧
    ValidatePolicy PolicyTypeWindow (PayloadStr.json (Json.obj
      [("windowType", Json.num 0), ("windowCron", Json.str "* * * * *")])) = true ∧
    ValidatePolicy PolicyTypeWindow (PayloadStr.json (Json.obj
      [("windowType", Json.num 0), ("windowCron", Json.str "not-a-cron")])) = false := by
  refine ⟨?_, ?_, ?_, by decide, by decide⟩
  · intro t ht
    simp [ValidatePolicy, ht]
  · intro t p ht
    simp [ValidatePolicy, ht]
  · intro p hp
    exact ⟨validate_approval_nonempty p hp, validate_backup_plan_nonempty p hp,
      validate_window_nonempty p hp⟩

/-- C6 witness: empty payload with a known type validates; an unknown type
is rejected; a concrete DAILY backup-plan payload validates through the
non-empty characterization. -/
theorem c6_witness :
    ValidatePolicy PolicyTypeWindow PayloadStr.empty = true ∧
    ValidatePolicy "bb.policy.unknown" PayloadStr.malformed = false ∧
    ValidatePolicy PolicyTypeBackupPlan
        (PayloadStr.json (Json.obj [("schedule", Json.str "DAILY")])) = true :=
  ⟨c6_validate_policy.1 PolicyTypeWindow (by decide),
   c6_validate_policy.2.1 "bb.policy.unknown" PayloadStr.malformed (by decide),
   ((c6_validate_policy.2.2.1 (PayloadStr.json (Json.obj [("schedule", Json.str "DAILY")]))
       (fun h => PayloadStr.noConfusion h)).2.1).mpr
     ⟨⟨"DAILY"⟩, rfl, Or.inr (Or.inl rfl)⟩⟩

/-- C7: claim that a non-empty Window payload whose windowCron is the
empty string passes validation, in particular the serialized default
Window policy.  Evaluated: the default Window payload is the object with
windowType 2 and empty windowCron, and ValidatePolicy rejects it, because
the five-field cron parser rejects an empty expression and the code never
special-cases the WindowCronUnset value it both defines as the ANYTIME
window and returns from GetDefaultPolicy. -/
theorem c7_default_window_policy_fails_validation :
    GetDefaultPolicy PolicyTypeWindow = PayloadStr.json (Json.obj
      [("windowType", Json.num 2), ("windowCron", Json.str "")]) ∧
    ValidatePolicy PolicyTypeWindow (GetDefaultPolicy PolicyTypeWindow) = false :=
  ⟨rfl, by decide⟩

/-- C8: unmarshalling the marshalled form of any constructed policy value
of the three policy types gives back the same value. -/
theorem c8_policy_marshal_round_trip :
    (∀ pa : PipelineApprovalPolicy,
      UnmarshalPipelineApprovalPolicy (PipelineApprovalPolicy.string pa) = some pa) ∧
    (∀ bp : BackupPlanPolicy,
      UnmarshalBackupPlanPolicy (BackupPlanPolicy.string bp) = some bp) ∧
    (∀ wp : WindowPolicy,
      UnmarshalWindowPolicy (WindowPolicy.string wp) = some wp) :=
  ⟨fun _ => rfl, fun _ => rfl, fun _ => rfl⟩
